import Mathlib

/-!
Shallow embedding of the customer-risk backend (FastAPI + SQLAlchemy) and
verification of its specification claims.

The database is modelled as explicit lists of rows; each HTTP handler and
service method becomes a pure Lean function from the database state (plus the
request data and the freshly generated ids / timestamps that the source draws
from `uuid4` and `datetime.utcnow`) to an `Except`-value carrying either a
domain error or the updated state and response.  UUIDs are modelled as `Nat`
identifiers, timestamps as `Nat`, and SQL `Float` columns as `Rat` (the claims
never perform arithmetic on the stored values, only store and compare them).
-/

/-- Row of the `customers` table (src/backend/app/db/models.py, class Customer). -/
structure Customer where
  id : Nat
  name : String
  email : Option String
  phone : Option String
  external_id : Option String
  created_at : Nat
  updated_at : Option Nat
deriving DecidableEq

/-- Row of the `customer_features` table (class CustomerFeatureRecord). -/
structure CustomerFeatureRecord where
  id : Nat
  customer_id : Nat
  feature_name : String
  feature_value : Rat
  recorded_at : Nat
deriving DecidableEq

/-- Row of the `risk_predictions` table (class RiskPredictionRecord). -/
structure RiskPredictionRecord where
  id : Nat
  customer_id : Nat
  risk_level : String
  confidence_score : Option Rat
  prediction_timestamp : Nat
deriving DecidableEq

/-- Row of the `mitigations` table (class MitigationRecord). -/
structure MitigationRecord where
  id : Nat
  customer_id : Nat
  risk_level : String
  mitigation_type : String
  description : String
  assigned_to : Option String
  due_date : Option Nat
  created_at : Nat
  updated_at : Option Nat
  status : String
deriving DecidableEq

/-- The whole database: one list of rows per table, in insertion order. -/
structure DB where
  customers : List Customer
  customer_features : List CustomerFeatureRecord
  risk_predictions : List RiskPredictionRecord
  mitigations : List MitigationRecord
deriving DecidableEq

/-- Domain errors raised by the handlers.  `notFound` is the HTTP 404 branch;
`invalidState` is the shared message "Mitigations can only be applied to
high-risk customers" (raised both by the pydantic validator
`MitigationCreate.validate_high_risk` and by the endpoint's 400 branch);
`invalidType` and `invalidStatus` are the enumeration checks; and
`predictionFailed` is the `ValueError` branch of `RiskModel.predict`
surfaced as HTTP 400 by the predict endpoint. -/
inductive ApiError where
  | notFound
  | invalidState
  | invalidType
  | invalidStatus
  | predictionFailed
deriving DecidableEq

/-- Embeds `db.query(Customer).filter(Customer.id == customer_id).first()`. -/
def DB.findCustomer (db : DB) (cid : Nat) : Option Customer :=
  db.customers.find? (fun c => c.id == cid)

/-- Embeds `db.query(RiskPredictionRecord).filter(customer_id == cid)`. -/
def DB.predictionsFor (db : DB) (cid : Nat) : List RiskPredictionRecord :=
  db.risk_predictions.filter (fun p => p.customer_id == cid)

/-- Embeds `ORDER BY prediction_timestamp DESC ... first()`: the row with the
greatest timestamp, the earlier-inserted row winning on a timestamp tie
(stable descending sort over insertion order). -/
def pickLatest : List RiskPredictionRecord → Option RiskPredictionRecord
  | [] => none
  | p :: ps =>
    match pickLatest ps with
    | none => some p
    | some q => if q.prediction_timestamp > p.prediction_timestamp then some q else some p

/-- The latest prediction row for a customer, as queried by the endpoints. -/
def DB.latest_prediction (db : DB) (cid : Nat) : Option RiskPredictionRecord :=
  pickLatest (db.predictionsFor cid)

/-- Request body of POST /mitigations (class MitigationCreate in
src/backend/app/models/schemas.py). -/
structure MitigationCreate where
  customer_id : Nat
  risk_level : String
  mitigation_type : String
  description : String
  assigned_to : Option String
  due_date : Option Nat
deriving DecidableEq

/-- The pydantic validators on `MitigationCreate`: `validate_high_risk`
rejects any caller-supplied risk_level other than "High", and
`validate_mitigation_type` rejects types outside the four allowed values.
They run before the endpoint body does. -/
def validate_mitigation_create (m : MitigationCreate) : Except ApiError MitigationCreate :=
  if m.risk_level ≠ "High" then .error .invalidState
  else if m.mitigation_type ∉ ["Flag", "Note", "Action", "Monitor"] then .error .invalidType
  else .ok m

/-- Embeds `create_mitigation` (src/backend/app/api/endpoints/mitigations.py):
schema validation, then the customer-existence check, then the live-ledger
check `latest_prediction.risk_level != "High"`, then insertion of the new row
with status "Pending". -/
def create_mitigation (db : DB) (m : MitigationCreate) (newId now : Nat) :
    Except ApiError (DB × MitigationRecord) :=
  match validate_mitigation_create m with
  | .error e => .error e
  | .ok m =>
    match db.findCustomer m.customer_id with
    | none => .error .notFound
    | some _ =>
      match db.latest_prediction m.customer_id with
      | none => .error .invalidState
      | some p =>
        if p.risk_level ≠ "High" then .error .invalidState
        else
          let r : MitigationRecord :=
            { id := newId, customer_id := m.customer_id, risk_level := m.risk_level,
              mitigation_type := m.mitigation_type, description := m.description,
              assigned_to := m.assigned_to, due_date := m.due_date,
              created_at := now, updated_at := none, status := "Pending" }
          .ok ({ db with mitigations := db.mitigations ++ [r] }, r)

/-- The `valid_statuses` list of `update_mitigation_status`. -/
def valid_statuses : List String := ["Pending", "In Progress", "Completed", "Cancelled"]

/-- Embeds `update_mitigation_status` (mitigations.py): the status-value check
comes first, then the existence lookup, then the in-place update. -/
def update_mitigation_status (db : DB) (mid : Nat) (status : String) (now : Nat) :
    Except ApiError (DB × MitigationRecord) :=
  if status ∉ valid_statuses then .error .invalidStatus
  else
    match db.mitigations.find? (fun m => m.id == mid) with
    | none => .error .notFound
    | some m =>
      let m' := { m with status := status, updated_at := some now }
      .ok ({ db with mitigations := db.mitigations.map (fun x => if x.id == mid then m' else x) }, m')

/-- Embeds `get_mitigation` (mitigations.py). -/
def get_mitigation (db : DB) (mid : Nat) : Except ApiError MitigationRecord :=
  match db.mitigations.find? (fun m => m.id == mid) with
  | none => .error .notFound
  | some m => .ok m

/-- Embeds `delete_customer` (src/backend/app/api/endpoints/customers.py):
after the existence check it deletes the customer's prediction rows and
feature rows and the customer row itself.  The mitigations table is left
untouched, exactly as in the source (no delete there and no cascade on the
ORM relationship). -/
def delete_customer (db : DB) (cid : Nat) : Except ApiError DB :=
  match db.findCustomer cid with
  | none => .error .notFound
  | some _ =>
    .ok { db with
      risk_predictions := db.risk_predictions.filter (fun p => p.customer_id != cid),
      customer_features := db.customer_features.filter (fun f => f.customer_id != cid),
      customers := db.customers.filter (fun c => c.id != cid) }

/-- C10: in `update_mitigation_status`, validity of the new status value is
checked before existence of the mitigation, so a request naming an absent
mitigation id together with an invalid status fails with `invalidStatus`
(HTTP 400), not `notFound` (HTTP 404); no state is returned on that path. -/
theorem updateStatus_checks_status_before_existence
    (db : DB) (mid : Nat) (status : String) (now : Nat)
    (habsent : db.mitigations.find? (fun m => m.id == mid) = none)
    (hbad : status ∉ valid_statuses) :
    update_mitigation_status db mid status now = .error .invalidStatus := by
  unfold update_mitigation_status
  rw [if_pos hbad]

/-- Witness for C10 at a concrete input: the empty database, mitigation id 1
(absent), status "Bogus" (invalid). -/
theorem updateStatus_checks_status_before_existence_witness :
    update_mitigation_status (DB.mk [] [] [] []) 1 "Bogus" 0 = .error .invalidStatus :=
  updateStatus_checks_status_before_existence (DB.mk [] [] [] []) 1 "Bogus" 0
    (by decide) (by decide)

/-- C1: mitigation creation is gated twice.  (a) A caller-supplied riskLevel
other than "High" fails with the invalid-state error regardless of the ledger
(the pydantic validator runs before the handler).  (b) For an existing
customer, a ledger whose current level is not "High" fails with the same
invalid-state error regardless of the supplied label (when the request is
otherwise well-formed).  (c) When both the label and the live ledger level are
"High" the creation succeeds and initialises status to "Pending". -/
theorem create_mitigation_high_risk_gating
    (db : DB) (m : MitigationCreate) (newId now : Nat) :
    (m.risk_level ≠ "High" → create_mitigation db m newId now = .error .invalidState) ∧
    (m.mitigation_type ∈ ["Flag", "Note", "Action", "Monitor"] →
      (db.findCustomer m.customer_id).isSome →
      (db.latest_prediction m.customer_id).map (fun p => p.risk_level) ≠ some "High" →
      create_mitigation db m newId now = .error .invalidState) ∧
    (m.risk_level = "High" →
      m.mitigation_type ∈ ["Flag", "Note", "Action", "Monitor"] →
      (db.findCustomer m.customer_id).isSome →
      (db.latest_prediction m.customer_id).map (fun p => p.risk_level) = some "High" →
      create_mitigation db m newId now =
        .ok ({ db with mitigations := db.mitigations ++
                [⟨newId, m.customer_id, m.risk_level, m.mitigation_type, m.description,
                  m.assigned_to, m.due_date, now, none, "Pending"⟩] },
             ⟨newId, m.customer_id, m.risk_level, m.mitigation_type, m.description,
              m.assigned_to, m.due_date, now, none, "Pending"⟩)) := by
  refine ⟨fun hne => ?_, fun htype hcust hledger => ?_, fun hhigh htype hcust hledger => ?_⟩
  · unfold create_mitigation validate_mitigation_create
    rw [if_pos hne]
  · by_cases hhigh : m.risk_level = "High"
    · obtain ⟨c, hc⟩ := Option.isSome_iff_exists.mp hcust
      unfold create_mitigation validate_mitigation_create
      rw [if_neg (fun h => h hhigh), if_neg (fun h => h htype)]
      simp only [hc]
      cases hl : db.latest_prediction m.customer_id with
      | none => rfl
      | some p =>
        rw [hl] at hledger
        simp only [Option.map_some'] at hledger
        have hpne : p.risk_level ≠ "High" := fun h => hledger (by rw [h])
        simp only [if_pos hpne]
    · unfold create_mitigation validate_mitigation_create
      rw [if_pos hhigh]
  · obtain ⟨c, hc⟩ := Option.isSome_iff_exists.mp hcust
    cases hl : db.latest_prediction m.customer_id with
    | none => rw [hl] at hledger; simp at hledger
    | some p =>
      rw [hl] at hledger
      simp only [Option.map_some', Option.some.injEq] at hledger
      unfold create_mitigation validate_mitigation_create
      rw [if_neg (fun h => h hhigh), if_neg (fun h => h htype)]
      simp only [hc, hl, if_neg (fun h : p.risk_level ≠ "High" => h hledger)]

/-- Example customer used by several concrete evaluations. -/
def janeDoe : Customer := ⟨1, "Jane Doe", none, none, none, 0, none⟩

/-- Example database whose customer 1 has a latest prediction of level High
(with confidence 1). -/
def dbLedgerHigh : DB :=
  ⟨[janeDoe], [], [⟨10, 1, "Low", none, 1⟩, ⟨11, 1, "High", some 1, 2⟩], []⟩

/-- Example database whose customer 1 has a latest prediction of level Low. -/
def dbLedgerLow : DB :=
  ⟨[janeDoe], [], [⟨10, 1, "High", none, 1⟩, ⟨11, 1, "Low", none, 2⟩], []⟩

/-- Example mitigation request carrying riskLevel "Low". -/
def mitReqLow : MitigationCreate := ⟨1, "Low", "Flag", "watch closely", none, none⟩

/-- Example mitigation request carrying riskLevel "High". -/
def mitReqHigh : MitigationCreate := ⟨1, "High", "Flag", "watch closely", none, none⟩

/-- Witness for C1 at concrete inputs: a Low-labelled request fails against a
High ledger, a High-labelled request fails against a Low ledger, and a
High-labelled request against a High ledger creates a Pending mitigation. -/
theorem create_mitigation_high_risk_gating_witness :
    create_mitigation dbLedgerHigh mitReqLow 50 10 = .error .invalidState ∧
    create_mitigation dbLedgerLow mitReqHigh 50 10 = .error .invalidState ∧
    create_mitigation dbLedgerHigh mitReqHigh 50 10 =
      .ok ({ dbLedgerHigh with mitigations :=
              [⟨50, 1, "High", "Flag", "watch closely", none, none, 10, none, "Pending"⟩] },
           ⟨50, 1, "High", "Flag", "watch closely", none, none, 10, none, "Pending"⟩) :=
  ⟨(create_mitigation_high_risk_gating dbLedgerHigh mitReqLow 50 10).1 (by decide),
   (create_mitigation_high_risk_gating dbLedgerLow mitReqHigh 50 10).2.1
     (by decide) (by decide) (by decide),
   (create_mitigation_high_risk_gating dbLedgerHigh mitReqHigh 50 10).2.2
     (by decide) (by decide) (by decide) (by decide)⟩

/-- Python-dict insertion used by the handlers when they build the feature
mapping by iterating over all of a customer's feature rows: an existing key is
overwritten in place, a fresh key is added at the end (insertion order). -/
def dictInsert (d : List (String × Rat)) (k : String) (v : Rat) : List (String × Rat) :=
  if d.any (fun kv => kv.1 == k) then d.map (fun kv => if kv.1 == k then (k, v) else kv)
  else d ++ [(k, v)]

/-- The `features` dict built by `get_customer`: iterate all feature rows of
the customer in insertion order, later rows overwriting earlier keys. -/
def featuresDict (rs : List CustomerFeatureRecord) : List (String × Rat) :=
  rs.foldl (fun d r => dictInsert d r.feature_name r.feature_value) []

/-- Embeds `db.query(CustomerFeatureRecord).filter(customer_id == cid)`. -/
def DB.featuresFor (db : DB) (cid : Nat) : List CustomerFeatureRecord :=
  db.customer_features.filter (fun f => f.customer_id == cid)

/-- The `customer_data` dict assembled by `get_customer` (customers.py).  The
risk fields are only set when a latest prediction exists, so they are `Option`s
whose `none` means the key is absent from the dict.  `confidence_score` is an
`Option Option` because the key, when present, can hold a SQL NULL. -/
structure CustomerWithFeatures where
  id : Nat
  name : String
  email : Option String
  phone : Option String
  external_id : Option String
  created_at : Nat
  updated_at : Option Nat
  features : List (String × Rat)
  risk_level : Option String
  confidence_score : Option (Option Rat)
  last_prediction : Option Nat
deriving DecidableEq

/-- Embeds `get_customer` (src/backend/app/api/endpoints/customers.py):
404 when the customer is absent, otherwise the snapshot dict with the risk
fields taken from the latest prediction when one exists and omitted (`none`)
otherwise. -/
def get_customer (db : DB) (cid : Nat) : Except ApiError CustomerWithFeatures :=
  match db.findCustomer cid with
  | none => .error .notFound
  | some c =>
    let lp := db.latest_prediction cid
    .ok { id := c.id, name := c.name, email := c.email, phone := c.phone,
          external_id := c.external_id, created_at := c.created_at,
          updated_at := c.updated_at,
          features := featuresDict (db.featuresFor cid),
          risk_level := lp.map (fun p => p.risk_level),
          confidence_score := lp.map (fun p => p.confidence_score),
          last_prediction := lp.map (fun p => p.prediction_timestamp) }

/-- C2 (code bug): deleting customer 1, who owns a feature row, a prediction
row and mitigation row 40, removes the feature and prediction rows but leaves
the mitigation row in the table, and fetching that mitigation afterwards still
succeeds instead of yielding NotFound.  The endpoint deletes only
`RiskPredictionRecord` and `CustomerFeatureRecord` rows and the ORM
relationship declares no delete cascade, contradicting both the claim and the
handler's own docstring "Delete a customer and all associated records". -/
theorem delete_customer_leaves_mitigations :
    delete_customer
        ⟨[janeDoe], [⟨20, 1, "age", 30, 1⟩], [⟨10, 1, "High", none, 1⟩],
         [⟨40, 1, "High", "Flag", "watch closely", none, none, 2, none, "Pending"⟩]⟩ 1 =
      .ok ⟨[], [], [],
           [⟨40, 1, "High", "Flag", "watch closely", none, none, 2, none, "Pending"⟩]⟩ ∧
    get_mitigation
        ⟨[], [], [],
         [⟨40, 1, "High", "Flag", "watch closely", none, none, 2, none, "Pending"⟩]⟩ 40 =
      .ok ⟨40, 1, "High", "Flag", "watch closely", none, none, 2, none, "Pending"⟩ :=
  ⟨rfl, rfl⟩

/-- Any row returned by `pickLatest` belongs to the queried list. -/
theorem pickLatest_mem : ∀ {l : List RiskPredictionRecord} {q : RiskPredictionRecord},
    pickLatest l = some q → q ∈ l := by
  intro l
  induction l with
  | nil => intro q h; simp [pickLatest] at h
  | cons a t ih =>
    intro q h
    cases ht : pickLatest t with
    | none =>
      simp only [pickLatest, ht] at h
      cases h
      exact List.mem_cons_self a t
    | some r =>
      simp only [pickLatest, ht] at h
      by_cases hgt : r.prediction_timestamp > a.prediction_timestamp
      · rw [if_pos hgt] at h
        cases h
        exact List.mem_cons_of_mem a (ih ht)
      · rw [if_neg hgt] at h
        cases h
        exact List.mem_cons_self a t

/-- On a nonempty list `pickLatest` returns a row. -/
theorem pickLatest_isSome : ∀ {l : List RiskPredictionRecord}, l ≠ [] →
    (pickLatest l).isSome := by
  intro l h
  cases l with
  | nil => exact absurd rfl h
  | cons a t =>
    cases ht : pickLatest t with
    | none => simp only [pickLatest, ht]; rfl
    | some r =>
      simp only [pickLatest, ht]
      by_cases hgt : r.prediction_timestamp > a.prediction_timestamp
      · rw [if_pos hgt]; rfl
      · rw [if_neg hgt]; rfl

/-- When one row strictly dominates every other row's timestamp,
`pickLatest` returns exactly that row. -/
theorem pickLatest_unique_max : ∀ {l : List RiskPredictionRecord}
    {p : RiskPredictionRecord}, p ∈ l →
    (∀ q ∈ l, q ≠ p → q.prediction_timestamp < p.prediction_timestamp) →
    pickLatest l = some p := by
  intro l
  induction l with
  | nil => intro p hp _; cases hp
  | cons a t ih =>
    intro p hp huniq
    by_cases hpa : p = a
    · subst hpa
      cases ht : pickLatest t with
      | none => simp only [pickLatest, ht]
      | some r =>
        simp only [pickLatest, ht]
        have hrt : r ∈ t := pickLatest_mem ht
        by_cases hrp : r = p
        · subst hrp
          rw [if_neg (lt_irrefl _)]
        · have hlt := huniq r (List.mem_cons_of_mem _ hrt) hrp
          rw [if_neg (fun hgt => lt_asymm hlt hgt)]
    · have hpt : p ∈ t := by
        cases hp with
        | head => exact absurd rfl hpa
        | tail _ h => exact h
      have ht := ih hpt (fun q hq hne => huniq q (List.mem_cons_of_mem _ hq) hne)
      simp only [pickLatest, ht]
      have hlt : a.prediction_timestamp < p.prediction_timestamp :=
        huniq a (List.mem_cons_self a t) (fun h => hpa h.symm)
      rw [if_pos hlt]

/-- C3: for an existing customer the snapshot's risk fields are driven by the
latest prediction.  With zero predictions all three risk fields are omitted
(`none`), not defaulted to "Low"; with at least one prediction, and the
maximum timestamp attained by a single record, the snapshot reports exactly
that record's level, confidence and timestamp. -/
theorem customer_snapshot_risk_fields (db : DB) (cid : Nat)
    (snap : CustomerWithFeatures) (h : get_customer db cid = .ok snap) :
    (db.predictionsFor cid = [] →
      snap.risk_level = none ∧ snap.confidence_score = none ∧
        snap.last_prediction = none) ∧
    (∀ p ∈ db.predictionsFor cid,
      (∀ q ∈ db.predictionsFor cid, q ≠ p →
        q.prediction_timestamp < p.prediction_timestamp) →
      snap.risk_level = some p.risk_level ∧
        snap.confidence_score = some p.confidence_score ∧
        snap.last_prediction = some p.prediction_timestamp) := by
  unfold get_customer at h
  cases hfind : db.findCustomer cid with
  | none => rw [hfind] at h; exact absurd h (by simp)
  | some c =>
    rw [hfind] at h
    injection h with h
    subst h
    constructor
    · intro hempty
      simp [DB.latest_prediction, hempty, pickLatest]
    · intro p hp huniq
      have : db.latest_prediction cid = some p := pickLatest_unique_max hp huniq
      simp [this]

/-- Example database whose customer 1 has predictions Low at time 1 and High
(confidence 1) at time 2. -/
def dbTwoPreds : DB := dbLedgerHigh

/-- Snapshot `get_customer` produces for customer 1 of `dbTwoPreds`. -/
def snapTwoPreds : CustomerWithFeatures :=
  ⟨1, "Jane Doe", none, none, none, 0, none, [], some "High", some (some 1), some 2⟩

/-- Witness for C3 at a concrete input: with predictions Low at time 1 and
High at time 2, the snapshot reports High with the time-2 confidence and
timestamp. -/
theorem customer_snapshot_risk_fields_witness :
    snapTwoPreds.risk_level = some "High" ∧
    snapTwoPreds.confidence_score = some (some 1) ∧
    snapTwoPreds.last_prediction = some 2 :=
  (customer_snapshot_risk_fields dbTwoPreds 1 snapTwoPreds rfl).2
    ⟨11, 1, "High", some 1, 2⟩ (by decide) (by decide)

/-- Distinct customer ids appearing in the risk_predictions table: the
DISTINCT ON (customer_id) grouping used by both aggregation paths. -/
def predictionCustomerIds (db : DB) : List Nat :=
  (db.risk_predictions.map (fun p => p.customer_id)).dedup

/-- One level per customer with at least one prediction: the level of that
customer's latest prediction row (the result set of the statistics subquery
`SELECT DISTINCT ON (customer_id) ... ORDER BY customer_id, timestamp DESC`). -/
def latestLevels (db : DB) : List String :=
  (predictionCustomerIds db).filterMap
    (fun cid => (db.latest_prediction cid).map (fun p => p.risk_level))

/-- Embeds `db.query(subquery).filter(subquery.c.risk_level == level).count()`. -/
def countLevel (level : String) (ls : List String) : Nat :=
  (ls.filter (fun s => s == level)).length

/-- Response of GET /predictions/statistics (schema RiskDistribution). -/
structure RiskDistribution where
  low_risk_count : Nat
  medium_risk_count : Nat
  high_risk_count : Nat
  total_customers : Nat
deriving DecidableEq

/-- Embeds the endpoint `get_risk_distribution` (predictions.py): bucket
counts over the latest level per customer, with
`total_customers = low_risk + medium_risk + high_risk`. -/
def get_risk_distribution (db : DB) : RiskDistribution :=
  { low_risk_count := countLevel "Low" (latestLevels db),
    medium_risk_count := countLevel "Medium" (latestLevels db),
    high_risk_count := countLevel "High" (latestLevels db),
    total_customers := countLevel "Low" (latestLevels db) +
      countLevel "Medium" (latestLevels db) + countLevel "High" (latestLevels db) }

/-- Embeds `RiskService.get_risk_distribution` (risk_service.py): the same
bucket counts, but `total_customers = db.query(Customer).count()`, the
absolute number of customer rows. -/
def service_get_risk_distribution (db : DB) : RiskDistribution :=
  { low_risk_count := countLevel "Low" (latestLevels db),
    medium_risk_count := countLevel "Medium" (latestLevels db),
    high_risk_count := countLevel "High" (latestLevels db),
    total_customers := db.customers.length }

/-- Over a list of strings drawn from the three levels, the three level
counts sum to the list's length. -/
theorem countLevel_sum : ∀ l : List String,
    (∀ s ∈ l, s = "Low" ∨ s = "Medium" ∨ s = "High") →
    countLevel "Low" l + countLevel "Medium" l + countLevel "High" l = l.length := by
  intro l
  induction l with
  | nil => intro _; rfl
  | cons a t ih =>
    intro h
    have ht := ih (fun s hs => h s (List.mem_cons_of_mem _ hs))
    rcases h a (List.mem_cons_self a t) with h1 | h1 | h1 <;> subst h1 <;>
      simp only [countLevel, List.filter_cons] <;> simp <;>
      simp only [countLevel] at ht <;> omega

/-- A filterMap whose function is `some` on every element preserves length. -/
theorem length_filterMap_isSome {α β : Type} (f : α → Option β) :
    ∀ l : List α, (∀ x ∈ l, (f x).isSome) → (l.filterMap f).length = l.length := by
  intro l
  induction l with
  | nil => intro _; rfl
  | cons a t ih =>
    intro h
    have ha := h a (List.mem_cons_self a t)
    cases hfa : f a with
    | none => rw [hfa] at ha; simp at ha
    | some b =>
      simp only [List.filterMap_cons, hfa, List.length_cons]
      rw [ih (fun x hx => h x (List.mem_cons_of_mem _ hx))]

/-- Every id in `predictionCustomerIds` has a latest prediction row. -/
theorem latest_prediction_isSome_of_mem (db : DB) (cid : Nat)
    (h : cid ∈ predictionCustomerIds db) : (db.latest_prediction cid).isSome := by
  rw [predictionCustomerIds, List.mem_dedup] at h
  obtain ⟨p, hp, hpc⟩ := List.mem_map.mp h
  have hmem : p ∈ db.predictionsFor cid := by
    rw [DB.predictionsFor, List.mem_filter]
    exact ⟨hp, by simp [hpc]⟩
  exact pickLatest_isSome (List.ne_nil_of_mem hmem)

/-- Every level in `latestLevels` is the level of some stored prediction row. -/
theorem latestLevels_mem (db : DB) (s : String) (h : s ∈ latestLevels db) :
    ∃ p ∈ db.risk_predictions, p.risk_level = s := by
  rw [latestLevels] at h
  obtain ⟨cid, _, hmap⟩ := List.mem_filterMap.mp h
  cases hl : db.latest_prediction cid with
  | none => rw [hl] at hmap; simp at hmap
  | some p =>
    rw [hl] at hmap
    simp only [Option.map_some', Option.some.injEq] at hmap
    refine ⟨p, ?_, hmap⟩
    have hpm : p ∈ db.predictionsFor cid :=
      pickLatest_mem (show pickLatest (db.predictionsFor cid) = some p from hl)
    exact List.mem_of_mem_filter hpm

/-- Shared core of the aggregation claims: with every stored level in the
enumeration, the three bucket counts sum to the number of distinct customers
that have at least one prediction row. -/
theorem bucket_counts_sum (db : DB)
    (hvalid : ∀ p ∈ db.risk_predictions,
      p.risk_level = "Low" ∨ p.risk_level = "Medium" ∨ p.risk_level = "High") :
    countLevel "Low" (latestLevels db) + countLevel "Medium" (latestLevels db) +
      countLevel "High" (latestLevels db) = (predictionCustomerIds db).length := by
  have h1 : ∀ s ∈ latestLevels db, s = "Low" ∨ s = "Medium" ∨ s = "High" := by
    intro s hs
    obtain ⟨p, hp, hps⟩ := latestLevels_mem db s hs
    rw [← hps]
    exact hvalid p hp
  rw [countLevel_sum _ h1, latestLevels]
  exact length_filterMap_isSome _ _
    (fun cid hc => by simpa using latest_prediction_isSome_of_mem db cid hc)

/-- C4: under the risk-level enumeration invariant, the three bucket counts of
the statistics aggregation sum to exactly the number of distinct customers
having at least one prediction row, and a customer with zero prediction rows
is part of no bucket (its id is absent from the grouped set the buckets are
drawn from). -/
theorem risk_distribution_counts_partition (db : DB)
    (hvalid : ∀ p ∈ db.risk_predictions,
      p.risk_level = "Low" ∨ p.risk_level = "Medium" ∨ p.risk_level = "High") :
    (get_risk_distribution db).low_risk_count +
        (get_risk_distribution db).medium_risk_count +
        (get_risk_distribution db).high_risk_count = (predictionCustomerIds db).length ∧
    ∀ c ∈ db.customers, db.predictionsFor c.id = [] →
      c.id ∉ predictionCustomerIds db := by
  refine ⟨bucket_counts_sum db hvalid, ?_⟩
  intro c _ hempty hmem
  rw [predictionCustomerIds, List.mem_dedup] at hmem
  obtain ⟨p, hp, hpc⟩ := List.mem_map.mp hmem
  have hpmem : p ∈ db.predictionsFor c.id := by
    rw [DB.predictionsFor, List.mem_filter]
    exact ⟨hp, by simp [hpc]⟩
  rw [hempty] at hpmem
  cases hpmem

/-- Example database with three customers: customer 1's latest level is High,
customer 2's is Medium, customer 3 has no predictions at all. -/
def dbMixed : DB :=
  ⟨[janeDoe, ⟨2, "John Roe", none, none, none, 0, none⟩,
    ⟨3, "Ann Poe", none, none, none, 0, none⟩],
   [],
   [⟨10, 1, "Low", none, 1⟩, ⟨11, 1, "High", some 1, 2⟩, ⟨12, 2, "Medium", none, 1⟩],
   []⟩

/-- Witness for C4 at a concrete input: in `dbMixed` the bucket counts sum to
2, the number of distinct customers with predictions (customer 3 excluded). -/
theorem risk_distribution_counts_partition_witness :
    (get_risk_distribution dbMixed).low_risk_count +
        (get_risk_distribution dbMixed).medium_risk_count +
        (get_risk_distribution dbMixed).high_risk_count =
      (predictionCustomerIds dbMixed).length :=
  (risk_distribution_counts_partition dbMixed (by decide)).1

/-- C5: the statistics endpoint and the risk service define `total_customers`
differently - the endpoint's total is the sum of the three bucket counts,
the service's total is the absolute customer-row count - and on any state
with intact keys in which some customer has no prediction rows the two totals
differ (the endpoint total is strictly smaller). -/
theorem total_customers_two_semantics (db : DB)
    (hvalid : ∀ p ∈ db.risk_predictions,
      p.risk_level = "Low" ∨ p.risk_level = "Medium" ∨ p.risk_level = "High")
    (hfk : ∀ p ∈ db.risk_predictions, ∃ c ∈ db.customers, c.id = p.customer_id)
    (hpk : (db.customers.map (fun c => c.id)).Nodup)
    (c₀ : Customer) (hc₀ : c₀ ∈ db.customers) (hnone : db.predictionsFor c₀.id = []) :
    (get_risk_distribution db).total_customers =
      (get_risk_distribution db).low_risk_count +
        (get_risk_distribution db).medium_risk_count +
        (get_risk_distribution db).high_risk_count ∧
    (service_get_risk_distribution db).total_customers = db.customers.length ∧
    (get_risk_distribution db).total_customers <
      (service_get_risk_distribution db).total_customers := by
  refine ⟨rfl, rfl, ?_⟩
  have hsub : (predictionCustomerIds db).toFinset ⊆
      (db.customers.map (fun c => c.id)).toFinset := by
    intro x hx
    rw [List.mem_toFinset] at hx ⊢
    rw [predictionCustomerIds, List.mem_dedup] at hx
    obtain ⟨p, hp, hpc⟩ := List.mem_map.mp hx
    obtain ⟨c, hc, hcid⟩ := hfk p hp
    exact List.mem_map.mpr ⟨c, hc, by rw [hcid, hpc]⟩
  have hmemc : c₀.id ∈ (db.customers.map (fun c => c.id)).toFinset := by
    rw [List.mem_toFinset]
    exact List.mem_map.mpr ⟨c₀, hc₀, rfl⟩
  have hnotin : c₀.id ∉ (predictionCustomerIds db).toFinset := by
    rw [List.mem_toFinset]
    intro hmem
    rw [predictionCustomerIds, List.mem_dedup] at hmem
    obtain ⟨p, hp, hpc⟩ := List.mem_map.mp hmem
    have hpmem : p ∈ db.predictionsFor c₀.id := by
      rw [DB.predictionsFor, List.mem_filter]
      exact ⟨hp, by simp [hpc]⟩
    rw [hnone] at hpmem
    cases hpmem
  have hcard := Finset.card_lt_card
    ((Finset.ssubset_iff_of_subset hsub).mpr ⟨c₀.id, hmemc, hnotin⟩)
  have hn : (predictionCustomerIds db).Nodup := List.nodup_dedup _
  have h1 : (predictionCustomerIds db).toFinset.card = (predictionCustomerIds db).length :=
    List.toFinset_card_of_nodup hn
  have h2 : (db.customers.map (fun c => c.id)).toFinset.card =
      (db.customers.map (fun c => c.id)).length :=
    List.toFinset_card_of_nodup hpk
  rw [h1, h2, List.length_map] at hcard
  calc (get_risk_distribution db).total_customers
      = (predictionCustomerIds db).length := bucket_counts_sum db hvalid
    _ < db.customers.length := hcard

/-- Witness for C5 at a concrete input: in `dbMixed` the endpoint total (2) is
strictly below the service total (3) because customer 3 has no predictions. -/
theorem total_customers_two_semantics_witness :
    (get_risk_distribution dbMixed).total_customers <
      (service_get_risk_distribution dbMixed).total_customers :=
  (total_customers_two_semantics dbMixed (by decide) (by decide) (by decide)
    ⟨3, "Ann Poe", none, none, none, 0, none⟩ (by decide) rfl).2.2

/-- Outcome of the raw pickled-model call inside `RiskModel.predict`: either
the raw predicted class (an integer, `self.model.predict(...)[0]`) together
with the optional `predict_proba` confidence, or an exception from the model
or the preprocessing. -/
inductive OracleResult where
  | ok (raw : Int) (confidence : Option Rat)
  | failure
deriving DecidableEq

/-- The `risk_levels` mapping of `RiskModel.predict`:
`{0: "Low", 1: "Medium", 2: "High"}` with `.get` default "Unknown". -/
def risk_levels_map (raw : Int) : String :=
  if raw = 0 then "Low" else if raw = 1 then "Medium"
  else if raw = 2 then "High" else "Unknown"

/-- Embeds `RiskModel.predict` (src/backend/app/models/ml_model.py): a model
exception becomes `ValueError` (surfaced by the endpoint as HTTP 400,
`predictionFailed`); otherwise the raw class is mapped through
`risk_levels_map` and returned with the confidence. -/
def model_predict (o : OracleResult) : Except ApiError (String × Option Rat) :=
  match o with
  | .failure => .error .predictionFailed
  | .ok raw conf => .ok (risk_levels_map raw, conf)

/-- The numeric entries of a supplied feature mapping (the source stores only
values passing `isinstance(feature_value, (int, float))` and not None). -/
def numericFeatures (features : List (String × Option Rat)) : List (String × Rat) :=
  features.filterMap (fun nv => nv.2.map (fun v => (nv.1, v)))

/-- Fresh feature rows for a list of numeric (name, value) pairs: one new row
per pair, each with its own fresh id (the source draws a uuid4 per row). -/
def mkFeatureRecords (base cid now : Nat) :
    List (String × Rat) → List CustomerFeatureRecord
  | [] => []
  | nv :: rest => ⟨base, cid, nv.1, nv.2, now⟩ :: mkFeatureRecords (base + 1) cid now rest

/-- The fresh rows carry exactly the supplied (name, value) pairs in order. -/
theorem mkFeatureRecords_pairs : ∀ (l : List (String × Rat)) (base cid now : Nat),
    (mkFeatureRecords base cid now l).map (fun f => (f.feature_name, f.feature_value)) = l := by
  intro l
  induction l with
  | nil => intro base cid now; rfl
  | cons nv rest ih =>
    intro base cid now
    simp [mkFeatureRecords, ih]

/-- Embeds the routed endpoint `predict_customer_risk`
(src/backend/app/api/endpoints/predictions.py): existence check, model call,
then insertion of the single prediction row.  The supplied feature mapping is
passed to the model only; this handler writes no feature rows. -/
def predict_customer_risk (db : DB) (cid : Nat) (features : List (String × Option Rat))
    (o : OracleResult) (newId now : Nat) : Except ApiError (DB × RiskPredictionRecord) :=
  match db.findCustomer cid with
  | none => .error .notFound
  | some _ =>
    match model_predict o with
    | .error e => .error e
    | .ok lc =>
      let p : RiskPredictionRecord := ⟨newId, cid, lc.1, lc.2, now⟩
      .ok ({ db with risk_predictions := db.risk_predictions ++ [p] }, p)

/-- Embeds `RiskService.predict_customer_risk`
(src/backend/app/services/risk_service.py): existence check, model call, then
one commit inserting the prediction row together with one feature row per
numeric feature supplied.  No route invokes this method. -/
def service_predict_customer_risk (db : DB) (cid : Nat)
    (features : List (String × Option Rat)) (o : OracleResult) (newId now : Nat) :
    Except ApiError (DB × RiskPredictionRecord) :=
  match db.findCustomer cid with
  | none => .error .notFound
  | some _ =>
    match model_predict o with
    | .error e => .error e
    | .ok lc =>
      let p : RiskPredictionRecord := ⟨newId, cid, lc.1, lc.2, now⟩
      .ok ({ db with
              risk_predictions := db.risk_predictions ++ [p],
              customer_features := db.customer_features ++
                mkFeatureRecords (newId + 1) cid now (numericFeatures features) }, p)

/-- Evaluation of the endpoint on the success path. -/
theorem predict_customer_risk_eq (db : DB) (cid : Nat)
    (features : List (String × Option Rat)) (raw : Int) (conf : Option Rat)
    (newId now : Nat) (c : Customer) (hc : db.findCustomer cid = some c) :
    predict_customer_risk db cid features (.ok raw conf) newId now =
      .ok ({ db with risk_predictions :=
              db.risk_predictions ++ [⟨newId, cid, risk_levels_map raw, conf, now⟩] },
           ⟨newId, cid, risk_levels_map raw, conf, now⟩) := by
  unfold predict_customer_risk model_predict
  rw [hc]

/-- Evaluation of the service method on the success path. -/
theorem service_predict_customer_risk_eq (db : DB) (cid : Nat)
    (features : List (String × Option Rat)) (raw : Int) (conf : Option Rat)
    (newId now : Nat) (c : Customer) (hc : db.findCustomer cid = some c) :
    service_predict_customer_risk db cid features (.ok raw conf) newId now =
      .ok ({ db with
              risk_predictions :=
                db.risk_predictions ++ [⟨newId, cid, risk_levels_map raw, conf, now⟩],
              customer_features := db.customer_features ++
                mkFeatureRecords (newId + 1) cid now (numericFeatures features) },
           ⟨newId, cid, risk_levels_map raw, conf, now⟩) := by
  unfold service_predict_customer_risk model_predict
  rw [hc]

/-- C6 (counterexample): a predict request for existing customer 1 supplying
one numeric feature, with the oracle succeeding (class 2, High), stores the
prediction row but appends no feature row whatsoever - the routed endpoint
never writes to the feature store - so the claim that the operation appends
one Feature Record per numeric feature supplied fails at this input. -/
theorem predict_endpoint_stores_no_features :
    predict_customer_risk ⟨[janeDoe], [], [], []⟩ 1 [("age", some 30)] (.ok 2 (some 1)) 5 7 =
      .ok (⟨[janeDoe], [], [⟨5, 1, "High", some 1, 7⟩], []⟩, ⟨5, 1, "High", some 1, 7⟩) ∧
    numericFeatures [("age", some 30)] = [("age", 30)] :=
  ⟨rfl, rfl⟩

/-- C6 (amended): for a predict request on an existing customer with a
successful oracle call, the routed endpoint appends exactly one prediction
row carrying the oracle's result and returns it, leaving the feature table
unchanged; only the service-layer predict method - which no route invokes -
additionally appends one feature row per numeric feature supplied. -/
theorem predict_appends_prediction_only (db : DB) (cid : Nat)
    (features : List (String × Option Rat)) (raw : Int) (conf : Option Rat)
    (newId now : Nat) (hc : (db.findCustomer cid).isSome) :
    predict_customer_risk db cid features (.ok raw conf) newId now =
      .ok ({ db with risk_predictions :=
              db.risk_predictions ++ [⟨newId, cid, risk_levels_map raw, conf, now⟩] },
           ⟨newId, cid, risk_levels_map raw, conf, now⟩) ∧
    service_predict_customer_risk db cid features (.ok raw conf) newId now =
      .ok ({ db with
              risk_predictions :=
                db.risk_predictions ++ [⟨newId, cid, risk_levels_map raw, conf, now⟩],
              customer_features := db.customer_features ++
                mkFeatureRecords (newId + 1) cid now (numericFeatures features) },
           ⟨newId, cid, risk_levels_map raw, conf, now⟩) ∧
    (mkFeatureRecords (newId + 1) cid now (numericFeatures features)).map
        (fun f => (f.feature_name, f.feature_value)) = numericFeatures features := by
  obtain ⟨c, hc'⟩ := Option.isSome_iff_exists.mp hc
  exact ⟨predict_customer_risk_eq db cid features raw conf newId now c hc',
         service_predict_customer_risk_eq db cid features raw conf newId now c hc',
         mkFeatureRecords_pairs _ _ _ _⟩

/-- Witness for C6's amended theorem at a concrete input. -/
theorem predict_appends_prediction_only_witness :
    predict_customer_risk ⟨[janeDoe], [], [], []⟩ 1 [("age", some 30)] (.ok 0 none) 5 7 =
      .ok (⟨[janeDoe], [], [⟨5, 1, "Low", none, 7⟩], []⟩, ⟨5, 1, "Low", none, 7⟩) :=
  (predict_appends_prediction_only ⟨[janeDoe], [], [], []⟩ 1 [("age", some 30)]
    0 none 5 7 (by decide)).1

/-- C8 (code bug): with raw model output 3 - outside the mapping
`{0: Low, 1: Medium, 2: High}` - `RiskModel.predict` returns the string
"Unknown" instead of raising, and the endpoint commits the prediction row
before the response schema would validate it, so a prediction row whose
risk_level lies outside the three enumerated values is reachable in the
store, contradicting the invariant (and the `RiskPrediction` schema's own
`validate_risk_level`). -/
theorem predict_stores_unknown_level :
    predict_customer_risk ⟨[janeDoe], [], [], []⟩ 1 [] (.ok 3 none) 5 7 =
      .ok (⟨[janeDoe], [], [⟨5, 1, "Unknown", none, 7⟩], []⟩, ⟨5, 1, "Unknown", none, 7⟩) ∧
    "Unknown" ∉ ["Low", "Medium", "High"] :=
  ⟨rfl, by decide⟩

/-- The `existing_feature` branch of `update_customer`: replace the first
feature row matching (customer, name), overwriting its value and recorded-at
in place; `none` when no row matches. -/
def replaceFirstFeature (cid : Nat) (name : String) (v : Rat) (now : Nat) :
    List CustomerFeatureRecord → Option (List CustomerFeatureRecord)
  | [] => none
  | f :: fs =>
    if f.customer_id == cid && f.feature_name == name then
      some ({ f with feature_value := v, recorded_at := now } :: fs)
    else
      (replaceFirstFeature cid name v now fs).map (fun fs' => f :: fs')

/-- One feature write of `update_customer` (customers.py): overwrite the first
existing (customer, name) row in place when there is one, append a fresh row
otherwise. -/
def update_one_feature (fs : List CustomerFeatureRecord) (cid : Nat) (name : String)
    (v : Rat) (now newId : Nat) : List CustomerFeatureRecord :=
  match replaceFirstFeature cid name v now fs with
  | some fs' => fs'
  | none => fs ++ [⟨newId, cid, name, v, now⟩]

/-- The feature loop of `update_customer`: one write per numeric entry. -/
def apply_feature_updates (cid now : Nat) :
    Nat → List (String × Rat) → List CustomerFeatureRecord → List CustomerFeatureRecord
  | _, [], fs => fs
  | base, nv :: rest, fs =>
    apply_feature_updates cid now (base + 1) rest
      (update_one_feature fs cid nv.1 nv.2 now base)

/-- Body of PUT /customers (schema CustomerBase) under pydantic
`exclude_unset` semantics: `none` marks a field the caller did not set. -/
structure CustomerBase where
  name : Option String
  email : Option String
  phone : Option String
deriving DecidableEq

/-- The `setattr` loop of `update_customer` plus the `updated_at` bump. -/
def apply_customer_update (c : Customer) (u : CustomerBase) (now : Nat) : Customer :=
  { c with name := u.name.getD c.name, email := u.email.or c.email,
           phone := u.phone.or c.phone, updated_at := some now }

/-- Embeds `update_customer` (src/backend/app/api/endpoints/customers.py):
404 check, field update with `updated_at` bump, then - when a features block
was supplied - the feature loop (overwrite in place when the (customer, name)
pair already has a row, append otherwise). -/
def update_customer (db : DB) (cid : Nat) (u : CustomerBase)
    (features_update : Option (List (String × Option Rat))) (now nextId : Nat) :
    Except ApiError DB :=
  match db.findCustomer cid with
  | none => .error .notFound
  | some c =>
    let cs := db.customers.map (fun x => if x.id == cid then apply_customer_update c u now else x)
    let db1 := { db with customers := cs }
    match features_update with
    | none => .ok db1
    | some fu =>
      let fs := apply_feature_updates cid now nextId (numericFeatures fu) db1.customer_features
      .ok { db1 with customer_features := fs }

/-- C7 (counterexample): updating customer 1 with feature "age" = 40 while an
"age" row (id 10, value 30, recorded at 5) already exists overwrites that
row's value and recorded-at in place - the old row is gone and nothing was
appended - so the claim that every feature write is an append and no existing
row is ever modified fails at this input. -/
theorem update_customer_overwrites_feature_row :
    update_customer ⟨[janeDoe], [⟨10, 1, "age", 30, 5⟩], [], []⟩ 1 ⟨none, none, none⟩
        (some [("age", some 40)]) 9 20 =
      .ok ⟨[⟨1, "Jane Doe", none, none, none, 0, some 9⟩],
           [⟨10, 1, "age", 40, 9⟩], [], []⟩ :=
  rfl

/-- Behaviour of the in-place replacement relative to `find?`: no matching row
means no replacement; a first matching row f₀ means same-length output
containing f₀ overwritten with the new value and timestamp. -/
theorem replaceFirstFeature_spec (cid : Nat) (name : String) (v : Rat) (now : Nat) :
    ∀ fs : List CustomerFeatureRecord,
    (fs.find? (fun f => f.customer_id == cid && f.feature_name == name) = none →
      replaceFirstFeature cid name v now fs = none) ∧
    (∀ f₀, fs.find? (fun f => f.customer_id == cid && f.feature_name == name) = some f₀ →
      ∃ fs', replaceFirstFeature cid name v now fs = some fs' ∧
        fs'.length = fs.length ∧
        { f₀ with feature_value := v, recorded_at := now } ∈ fs') := by
  intro fs
  induction fs with
  | nil => exact ⟨fun _ => rfl, fun f₀ h => by simp at h⟩
  | cons f t ih =>
    by_cases hf : (f.customer_id == cid && f.feature_name == name) = true
    · refine ⟨fun h => ?_, fun f₀ h => ?_⟩
      · simp only [List.find?, hf] at h
        exact Option.noConfusion h
      · simp only [List.find?, hf, Option.some.injEq] at h
        subst h
        exact ⟨{ f with feature_value := v, recorded_at := now } :: t,
          by simp [replaceFirstFeature, hf], by simp, List.mem_cons_self _ _⟩
    · rw [Bool.not_eq_true] at hf
      refine ⟨fun h => ?_, fun f₀ h => ?_⟩
      · simp only [List.find?, hf] at h
        simp [replaceFirstFeature, hf, ih.1 h]
      · simp only [List.find?, hf] at h
        obtain ⟨fs', hfs', hlen, hmem⟩ := ih.2 f₀ h
        exact ⟨f :: fs', by simp [replaceFirstFeature, hf, hfs'], by simp [hlen],
          List.mem_cons_of_mem _ hmem⟩

/-- Evaluation of `update_customer` on the success path with a features
block: fields updated, then the feature loop applied to the feature table. -/
theorem update_customer_eq (db : DB) (cid : Nat) (u : CustomerBase)
    (fu : List (String × Option Rat)) (now nextId : Nat) (c : Customer)
    (hc : db.findCustomer cid = some c) :
    update_customer db cid u (some fu) now nextId =
      .ok { db with
        customers :=
          db.customers.map (fun x => if x.id == cid then apply_customer_update c u now else x),
        customer_features :=
          apply_feature_updates cid now nextId (numericFeatures fu) db.customer_features } := by
  unfold update_customer
  rw [hc]

/-- C7 (amended): the service predict path only appends (existing feature
rows survive unchanged as a prefix of the new table), while `update_customer`
appends a fresh row only when the (customer, name) pair has no row yet, and
otherwise overwrites the first matching row's value and recorded-at in place,
keeping the table length and the row id. -/
theorem feature_write_semantics (db : DB) (cid : Nat) (name : String) (v : Rat)
    (u : CustomerBase) (features : List (String × Option Rat)) (raw : Int)
    (conf : Option Rat) (newId now nextId : Nat) :
    (∀ db' p, service_predict_customer_risk db cid features (.ok raw conf) newId now =
        .ok (db', p) →
      db'.customer_features.take db.customer_features.length = db.customer_features) ∧
    (db.customer_features.find?
        (fun f => f.customer_id == cid && f.feature_name == name) = none →
      ∀ db', update_customer db cid u (some [(name, some v)]) now nextId = .ok db' →
        db'.customer_features = db.customer_features ++ [⟨nextId, cid, name, v, now⟩]) ∧
    (∀ f₀, db.customer_features.find?
        (fun f => f.customer_id == cid && f.feature_name == name) = some f₀ →
      ∀ db', update_customer db cid u (some [(name, some v)]) now nextId = .ok db' →
        db'.customer_features.length = db.customer_features.length ∧
          { f₀ with feature_value := v, recorded_at := now } ∈ db'.customer_features) := by
  refine ⟨?_, ?_, ?_⟩
  · intro db' p h
    cases hc : db.findCustomer cid with
    | none => unfold service_predict_customer_risk at h; rw [hc] at h; cases h
    | some c =>
      rw [service_predict_customer_risk_eq db cid features raw conf newId now c hc] at h
      injection h with h
      rw [Prod.mk.injEq] at h
      obtain ⟨h1, _⟩ := h
      subst h1
      exact List.take_left _ _
  · intro hnone db' h
    cases hc : db.findCustomer cid with
    | none => unfold update_customer at h; rw [hc] at h; cases h
    | some c =>
      rw [update_customer_eq db cid u [(name, some v)] now nextId c hc] at h
      injection h with h
      subst h
      have hrep := (replaceFirstFeature_spec cid name v now db.customer_features).1 hnone
      show apply_feature_updates cid now nextId (numericFeatures [(name, some v)])
        db.customer_features = _
      simp [apply_feature_updates, numericFeatures, update_one_feature, hrep]
  · intro f₀ hfind db' h
    cases hc : db.findCustomer cid with
    | none => unfold update_customer at h; rw [hc] at h; cases h
    | some c =>
      rw [update_customer_eq db cid u [(name, some v)] now nextId c hc] at h
      injection h with h
      subst h
      obtain ⟨fs', hfs', hlen, hmem⟩ :=
        (replaceFirstFeature_spec cid name v now db.customer_features).2 f₀ hfind
      show (apply_feature_updates cid now nextId (numericFeatures [(name, some v)])
        db.customer_features).length = _ ∧ _ ∈ apply_feature_updates cid now nextId
          (numericFeatures [(name, some v)]) db.customer_features
      simp [apply_feature_updates, numericFeatures, update_one_feature, hfs', hlen, hmem]

/-- Example database with a single "age" = 30 feature row for customer 1. -/
def dbOneFeature : DB := ⟨[janeDoe], [⟨10, 1, "age", 30, 5⟩], [], []⟩

/-- State after `update_customer` overwrote the "age" row of `dbOneFeature`. -/
def dbOneFeatureUpdated : DB :=
  ⟨[⟨1, "Jane Doe", none, none, none, 0, some 9⟩], [⟨10, 1, "age", 40, 9⟩], [], []⟩

/-- Witness for C7's amended theorem at a concrete input: the overwrite
branch keeps the table length and stores the overwritten row under id 10. -/
theorem feature_write_semantics_witness :
    dbOneFeatureUpdated.customer_features.length =
        dbOneFeature.customer_features.length ∧
    (⟨10, 1, "age", 40, 9⟩ : CustomerFeatureRecord) ∈
        dbOneFeatureUpdated.customer_features :=
  (feature_write_semantics dbOneFeature 1 "age" 40 ⟨none, none, none⟩ [] 0 none 0 9 20).2.2
    ⟨10, 1, "age", 30, 5⟩ (by decide) dbOneFeatureUpdated rfl

/-- Body of POST /customers (schema CustomerCreate). -/
structure CustomerCreate where
  name : String
  email : Option String
  phone : Option String
  external_id : Option String
deriving DecidableEq

/-- Commit sequence of `create_customer` (customers.py): the handler first
commits the customer row alone, then - when a features block was supplied -
commits the feature rows in a second transaction.  Each list element is the
database state an observer (or a failure) can see after the corresponding
`db.commit()`. -/
def create_customer_commits (db : DB) (c : CustomerCreate)
    (features : Option (List (String × Option Rat))) (newId now nextFeatId : Nat) :
    List DB :=
  let cust : Customer := ⟨newId, c.name, c.email, c.phone, c.external_id, now, none⟩
  let db1 := { db with customers := db.customers ++ [cust] }
  match features with
  | none => [db1]
  | some fu =>
    let db2 := { db1 with customer_features :=
      db1.customer_features ++ mkFeatureRecords nextFeatId newId now (numericFeatures fu) }
    [db1, db2]

/-- Commit sequence of `RiskService.predict_customer_risk`: a single
`db.commit()` after both the prediction row and all feature rows were added;
on the error paths nothing is committed. -/
def service_predict_commits (db : DB) (cid : Nat)
    (features : List (String × Option Rat)) (o : OracleResult) (newId now : Nat) :
    List DB :=
  match service_predict_customer_risk db cid features o newId now with
  | .error _ => []
  | .ok r => [r.1]

/-- Atomicity of a commit sequence: every state observable before the final
commit still equals the initial state, i.e. either all of the operation's
writes are visible or none are. -/
def AtomicCommits (init : DB) (commits : List DB) : Prop :=
  ∀ s ∈ commits.dropLast, s = init

/-- C9 (counterexample): creating customer "Jane Doe" with one initial
feature commits twice; after the first commit the database already contains
the customer row while the feature table is still empty, so the write
sequence is observable half-done and the all-or-nothing claim fails at this
input. -/
theorem create_customer_commits_not_atomic :
    ¬ AtomicCommits ⟨[], [], [], []⟩
        (create_customer_commits ⟨[], [], [], []⟩ ⟨"Jane Doe", none, none, none⟩
          (some [("age", some 30)]) 1 0 2) := by
  intro h
  have hmem : (⟨[⟨1, "Jane Doe", none, none, none, 0, none⟩], [], [], []⟩ : DB) ∈
      (create_customer_commits ⟨[], [], [], []⟩ ⟨"Jane Doe", none, none, none⟩
        (some [("age", some 30)]) 1 0 2).dropLast := by decide
  exact absurd (h _ hmem) (by decide)

/-- C9 (amended): the prediction-plus-features write of the service predict
path is a single atomic commit, but creating a customer together with initial
features commits twice, and the intermediate committed state already holds
the new customer row while the feature table is untouched. -/
theorem commit_granularity (db : DB) (cid : Nat)
    (features : List (String × Option Rat)) (o : OracleResult) (newId now : Nat)
    (c : CustomerCreate) (fu : List (String × Option Rat))
    (cnewId cnow nextFeatId : Nat) :
    AtomicCommits db (service_predict_commits db cid features o newId now) ∧
    (create_customer_commits db c (some fu) cnewId cnow nextFeatId).length = 2 ∧
    ∀ s ∈ (create_customer_commits db c (some fu) cnewId cnow nextFeatId).dropLast,
      s.customer_features = db.customer_features ∧
        s.customers = db.customers ++
          [⟨cnewId, c.name, c.email, c.phone, c.external_id, cnow, none⟩] := by
  refine ⟨?_, rfl, ?_⟩
  · intro s hs
    unfold service_predict_commits at hs
    cases hres : service_predict_customer_risk db cid features o newId now with
    | error e => rw [hres] at hs; simp at hs
    | ok r => rw [hres] at hs; simp at hs
  · intro s hs
    simp only [create_customer_commits, List.dropLast, List.mem_singleton] at hs
    subst hs
    exact ⟨rfl, rfl⟩

/-- Witness for C9's amended theorem at a concrete input: the intermediate
commit of `create_customer` holds the customer but no features. -/
theorem commit_granularity_witness :
    (⟨[⟨1, "Jane Doe", none, none, none, 0, none⟩], [], [], []⟩ : DB).customer_features =
        (⟨[], [], [], []⟩ : DB).customer_features ∧
    (⟨[⟨1, "Jane Doe", none, none, none, 0, none⟩], [], [], []⟩ : DB).customers =
        (⟨[], [], [], []⟩ : DB).customers ++ [⟨1, "Jane Doe", none, none, none, 0, none⟩] :=
  (commit_granularity ⟨[], [], [], []⟩ 1 [] (.ok 0 none) 5 7 ⟨"Jane Doe", none, none, none⟩
      [("age", some 30)] 1 0 2).2.2 _ (by decide)
